import Mathlib

/-!
Shallow embedding of `src/pages/index.tsx` (fuelprices-frontend).

Modelling conventions:
* A JavaScript `Date` is its timestamp: an `Int` of milliseconds since the epoch.
  We model a fixed zero-offset local time zone (no DST), so the calendar day of a
  timestamp `t` is `t / 86400000` rounded toward negative infinity; Lean's `Int`
  division `/` is euclidean division, which is floor division for a positive
  divisor, hence `dayOf t = t / dayMs` is exactly the floor.
* date-fns `parse(s, "yyyy-MM-dd", ref)` is translated as `parseYMD`: on success
  it yields the timestamp of local midnight of the parsed day (date-fns zeroes
  every unit smaller than the smallest parsed unit); on failure it yields an
  Invalid Date, modelled as `none`.
* date-fns `format(t, "yyyy-MM-dd")` is translated as `formatYMD` applied to the
  calendar day of `t`; `format` of an Invalid Date throws, modelled by making the
  surrounding computation return `none`.
* React state hooks become fields of `HomeState`; event handlers and effects
  become functions `HomeState → HomeState`, collected into a step relation.
-/

namespace Fuelprices

/-! ### Calendar arithmetic (date-fns subset) -/

def dayMs : Int := 86400000

/-- Calendar day (days since 1970-01-01) of a millisecond timestamp. -/
def dayOf (t : Int) : Int := t / dayMs

/-- date-fns `addDays(t, n)` in the fixed-offset model. -/
def addDays (t : Int) (n : Int) : Int := t + n * dayMs

/-- date-fns `subDays(t, n)` in the fixed-offset model. -/
def subDays (t : Int) (n : Int) : Int := t - n * dayMs

/-- date-fns `isFuture(t)` at real time `rt`: the timestamp is strictly after now. -/
def isFuture (t : Int) (rt : Int) : Bool := decide (rt < t)

def isLeapYear (y : Int) : Bool :=
  y % 4 == 0 && (y % 100 != 0 || y % 400 == 0)

def daysInMonth (y : Int) (m : Nat) : Nat :=
  if m = 2 then (if isLeapYear y then 29 else 28)
  else if m = 4 ∨ m = 6 ∨ m = 9 ∨ m = 11 then 30
  else 31

/-- Days since 1970-01-01 of the civil date `y-m-d` (Hinnant's civil calendar algorithm). -/
def daysFromCivil (y0 : Int) (m d : Nat) : Int :=
  let y : Int := if m ≤ 2 then y0 - 1 else y0
  let era : Int := y / 400
  let yoe : Nat := (y - era * 400).toNat
  let mp : Nat := if 2 < m then m - 3 else m + 9
  let doy : Nat := (153 * mp + 2) / 5 + d - 1
  let doe : Nat := yoe * 365 + yoe / 4 - yoe / 100 + doy
  era * 146097 + (doe : Int) - 719468

/-- Civil date `(y, m, d)` of a days-since-epoch count (inverse direction of
`daysFromCivil`). -/
def civilFromDays (z0 : Int) : Int × Nat × Nat :=
  let z : Int := z0 + 719468
  let era : Int := z / 146097
  let doe : Nat := (z - era * 146097).toNat
  let yoe : Nat := (doe - doe / 1460 + doe / 36524 - doe / 146096) / 365
  let y : Int := (yoe : Int) + era * 400
  let doy : Nat := doe - (365 * yoe + yoe / 4 - yoe / 100)
  let mp : Nat := (5 * doy + 2) / 153
  let d : Nat := doy - (153 * mp + 2) / 5 + 1
  let m : Nat := if mp < 10 then mp + 3 else mp - 9
  (if m ≤ 2 then y + 1 else y, m, d)

def padNum (w n : Nat) : String :=
  let s := toString n
  if s.length < w then String.mk (List.replicate (w - s.length) '0') ++ s else s

/-- date-fns `format(t, "yyyy-MM-dd")` applied to a calendar day: zero-padded
year-month-day (year of era for nonpositive years, as date-fns `yyyy` displays). -/
def formatYMD (day : Int) : String :=
  let c := civilFromDays day
  let yEra : Nat := if c.1 ≤ 0 then (1 - c.1).toNat else c.1.toNat
  padNum 4 yEra ++ "-" ++ padNum 2 c.2.1 ++ "-" ++ padNum 2 c.2.2

/-- Greedily take at most `n` leading decimal digits (date-fns numeric token match). -/
def takeUpToDigits : Nat → List Char → List Char × List Char
  | 0, cs => ([], cs)
  | _ + 1, [] => ([], [])
  | n + 1, c :: cs =>
    if c.isDigit then
      let p := takeUpToDigits n cs
      (c :: p.1, p.2)
    else ([], c :: cs)

def digitsToNat (ds : List Char) : Nat :=
  ds.foldl (fun a c => a * 10 + (c.toNat - 48)) 0

/-- date-fns `parse(s, "yyyy-MM-dd", ref)`: match up to four digits (`yyyy`), a
literal `-`, up to two digits (`MM`), a literal `-`, up to two digits (`dd`);
trailing non-whitespace, a year of zero, an out-of-range month, or a day outside
the month's length give an Invalid Date (`none`).  On success the result is local
midnight of the parsed civil day (units below the day are zeroed). -/
def parseYMD (s : String) : Option Int :=
  let py := takeUpToDigits 4 s.data
  if py.1.isEmpty then none else
  match py.2 with
  | '-' :: r2 =>
    let pm := takeUpToDigits 2 r2
    if pm.1.isEmpty then none else
    match pm.2 with
    | '-' :: r4 =>
      let pd := takeUpToDigits 2 r4
      if pd.1.isEmpty then none
      else if pd.2.any (fun c => !c.isWhitespace) then none
      else
        let y : Int := (digitsToNat py.1 : Int)
        let m : Nat := digitsToNat pm.1
        let d : Nat := digitsToNat pd.1
        if 1 ≤ y ∧ 1 ≤ m ∧ m ≤ 12 ∧ 1 ≤ d ∧ d ≤ daysInMonth y m then
          some (dayMs * daysFromCivil y m d)
        else none
    | _ => none
  | _ => none

/-! ### Data model (`interface DayPrice`, `PriceResponse`, `DayKind`) -/

structure PrevPrice where
  detectionTimestamp : String
  price : Int
  deriving DecidableEq, Repr

structure DayPrice where
  date : String
  price : Int
  prevPrices : List PrevPrice
  deriving DecidableEq, Repr

inductive DayKind
  | Today
  | Yesterday
  | Tomorrow
  deriving DecidableEq, Repr

structure Prices where
  today : Option DayPrice
  tomorrow : Option DayPrice
  yesterday : Option DayPrice
  deriving DecidableEq, Repr

structure PriceResponse where
  message : String
  prices : Prices
  deriving DecidableEq, Repr

/-- Modelled from the spec: `FuelType` is "an opaque enumerated selector,
externally owned"; its definition lives in `src/pages/_app.tsx`, which is not
among the given sources.  We model it as an opaque string key. -/
abbrev Fueltype := String

/-- Modelled from the spec: `API_URL` comes from `src/utils/constants.ts`, which
is not among the given sources; it is an opaque constant component of the cache
key and its value is never interpreted by the core. -/
def API_URL : String := "API_URL"

/-! ### Component state (`Home`) -/

structure PriceChangeState where
  prevPrices : List PrevPrice
  day : DayKind
  deriving DecidableEq, Repr

structure HomeState where
  priceChangeState : Option PriceChangeState
  now : Int
  nowParam : String
  data : Option PriceResponse
  deriving DecidableEq, Repr

/-- `getInitialDate` (lines 84-94): parse the `now` query parameter if present,
else the formatted current date.  `rt` is the real current time (`new Date()`). -/
def getInitialDate (queryNow : Option String) (rt : Int) : Option Int :=
  parseYMD (queryNow.getD (formatYMD (dayOf rt)))

/-- Initial `HomeState` of `Home`.  When `getInitialDate` yields an Invalid Date
the first render's `format(now, ...)` (line 111) throws a `RangeError`, so no
state is produced: modelled as `none`. -/
def initState (queryNow : Option String) (rt : Int) : Option HomeState :=
  match getInitialDate queryNow rt with
  | none => none
  | some t =>
    some { priceChangeState := none, now := t, nowParam := formatYMD (dayOf t), data := none }

/-- `toggleShowPriceChange` (lines 143-155). -/
def toggleShowPriceChange (prevPrices : List PrevPrice) (day : DayKind)
    (s : Option PriceChangeState) : Option PriceChangeState :=
  match s with
  | some cur =>
    if cur.day = day then none
    else some { prevPrices := prevPrices, day := day }
  | none => some { prevPrices := prevPrices, day := day }

inductive Direction
  | left
  | right
  deriving DecidableEq, Repr

/-- The candidate date of a navigation step (`subDays`/`addDays` in lines 159-163). -/
def navTarget (direction : Direction) (t : Int) : Int :=
  match direction with
  | Direction.left => subDays t 1
  | Direction.right => addDays t 1

/-- `changeDate` (lines 157-168): step the date by one day; if the result would be
in the future the whole update is skipped, otherwise `now` is set and the
price-change panel is cleared. -/
def changeDate (rt : Int) (direction : Direction) (st : HomeState) : HomeState :=
  let newNow := navTarget direction st.now
  if isFuture newNow rt = false then
    { st with now := newNow, priceChangeState := none }
  else st

/-- The `useEffect` on `[now]` (lines 123-141), restricted to component state: it
recomputes `nowParam` from `now` (the `router.push` writes only to the external
URL collaborator). -/
def syncNowEffect (st : HomeState) : HomeState :=
  { st with nowParam := formatYMD (dayOf st.now) }

/-- `data?.prices?.<slot> ?? null` for a slot. -/
def slotPrice (day : DayKind) (data : Option PriceResponse) : Option DayPrice :=
  match day with
  | DayKind.Yesterday => data.bind (fun r => r.prices.yesterday)
  | DayKind.Today => data.bind (fun r => r.prices.today)
  | DayKind.Tomorrow => data.bind (fun r => r.prices.tomorrow)

/-- `data?.prices?.<slot>?.prevPrices ?? []` for a slot (lines 196, 208, 220). -/
def slotPrevPrices (day : DayKind) (data : Option PriceResponse) : List PrevPrice :=
  ((slotPrice day data).map DayPrice.prevPrices).getD []

/-- A click on a slot's `PriceDisplay`: the `onClick` handler (line 45) invokes
`toggleDisplayChanges` only when `hasPriceChanged`, i.e. when the slot's
`prevPrices` list is non-empty. -/
def clickSlot (day : DayKind) (st : HomeState) : HomeState :=
  let pp := slotPrevPrices day st.data
  if 0 < pp.length then
    { st with priceChangeState := toggleShowPriceChange pp day st.priceChangeState }
  else st

/-- The discrete events the component reacts to: a navigation click, a slot
click, a fuel-type change from the shell (the `useEffect` on `[fueltype]`, lines
119-121, clears the panel), and resolution of a fetch (SWR hands `data` to the
component). -/
inductive Event
  | navigate (direction : Direction)
  | slotClicked (day : DayKind)
  | fuelChanged
  | dataResolved (r : PriceResponse)

def stepEv (rt : Int) (e : Event) (st : HomeState) : HomeState :=
  match e with
  | Event.navigate direction => syncNowEffect (changeDate rt direction st)
  | Event.slotClicked day => clickSlot day st
  | Event.fuelChanged => { st with priceChangeState := none }
  | Event.dataResolved r => { st with data := some r }

/-- States reachable from `st0` by any interleaving of events, with the real
current time fixed at `rt`. -/
inductive ReachableFrom (rt : Int) (st0 : HomeState) : HomeState → Prop
  | refl : ReachableFrom rt st0 st0
  | step (e : Event) {st : HomeState} (h : ReachableFrom rt st0 st) :
      ReachableFrom rt st0 (stepEv rt e st)

/-- The no-future invariant: the reference date is not after the real current
calendar date. -/
def noFuture (rt : Int) (st : HomeState) : Prop := dayOf st.now ≤ dayOf rt

instance (rt : Int) (st : HomeState) : Decidable (noFuture rt st) :=
  inferInstanceAs (Decidable (dayOf st.now ≤ dayOf rt))

/-! ### Cache key (`useSWR` key, lines 110-117) -/

abbrev CacheKey := String × String × Fueltype

/-- The SWR cache key `[API_URL, nowParam, fueltype]` where `nowParam` is
`format(now, "yyyy-MM-dd")` (lines 111, 113-114, 124, 140). -/
def deriveKey (t : Int) (fueltype : Fueltype) : CacheKey :=
  (API_URL, formatYMD (dayOf t), fueltype)

/-! ### PriceRecordStore -/

/-- Modelled from the spec: fetch status of a store entry (§4.3 PriceRecordStore,
"loading" while in flight, then resolved data or error).  The deduplicating cache
itself is the `useSWR` library, which is not part of this repository's sources. -/
inductive FetchStatus
  | pending
  | resolvedOk (r : PriceResponse)
  | resolvedErr
  deriving DecidableEq, Repr

/-- Modelled from the spec: the store's key-to-status mapping, "the only shared
mutable resource", owned by the store (§5). -/
structure Store where
  entries : List (CacheKey × FetchStatus)
  deriving DecidableEq, Repr

def lookupKey (s : Store) (k : CacheKey) : Option FetchStatus :=
  (s.entries.find? (fun e => decide (e.1 = k))).map (fun e => e.2)

/-- Modelled from the spec: `resolve(key, fetchFn)` (§4.3).  If no entry exists
for the key a fresh entry is created, marked loading, and `fetchFn` is invoked
(the returned flag records that invocation); if an entry exists, in-flight or
resolved, it is served as is and no fetch is triggered. -/
def resolve (k : CacheKey) (s : Store) : Store × Bool :=
  match lookupKey s k with
  | none => ({ entries := (k, FetchStatus.pending) :: s.entries }, true)
  | some _ => (s, false)

/-- Iterate `resolve` for the same key `n` times with no intervening completion,
counting how many of the calls invoked the fetch function. -/
def resolveN (k : CacheKey) : Nat → Store → Store × Nat
  | 0, s => (s, 0)
  | n + 1, s =>
    let p := resolve k s
    let q := resolveN k n p.1
    (q.1, (if p.2 then 1 else 0) + q.2)

/-! ### View composition (`PriceDisplay`, lines 29-54, and the panel, lines 227-234) -/

structure PriceDisplayView where
  pulse : Bool
  clickable : Bool
  titleText : String
  roleText : String
  dayShown : DayKind
  changedMarker : Bool
  priceText : String
  highlighted : Bool
  deriving DecidableEq, Repr

/-- The `PriceDisplay` component as a pure view function: `hasPriceChanged` is
`(price?.prevPrices ?? []).length > 0` (line 36); `pulse` is the `animate-pulse`
class from `loading`; `clickable` the `cursor-pointer` class, `titleText` /
`roleText` / `changedMarker` the conditional title, role and `*` marker; the
price cell shows `price?.price ?? "??.??"` followed by `kr` (line 51). -/
def renderPriceDisplay (loading : Bool) (price : Option DayPrice) (day : DayKind)
    (active : Bool) : PriceDisplayView :=
  let hasPriceChanged : Bool := decide (0 < ((price.map DayPrice.prevPrices).getD []).length)
  { pulse := loading
    clickable := hasPriceChanged
    titleText := if hasPriceChanged then "Price has changed" else ""
    roleText := if hasPriceChanged then "button" else "none"
    dayShown := day
    changedMarker := hasPriceChanged
    priceText := ((price.map (fun p => toString p.price)).getD "??.??") ++ " kr"
    highlighted := active }

/-- The revision-history panel (lines 227-234): rendered exactly when
`priceChangeState` is non-null, exclusively from the `day` and `prevPrices`
stored in it. -/
def renderPanel (st : HomeState) : Option (DayKind × List PrevPrice) :=
  st.priceChangeState.map (fun pcs => (pcs.day, pcs.prevPrices))

/-! ### Concrete fixtures used by witnesses -/

/-- The default initial state at real time 2024-01-01T00:00 (timestamp
1704067200000, day 19723). -/
def homeState0 : HomeState :=
  { priceChangeState := none, now := 1704067200000, nowParam := "2024-01-01", data := none }

def key0 : CacheKey := (API_URL, "2024-01-01", "E10")

def store0 : Store := { entries := [] }

def resp0 : PriceResponse :=
  { message := "", prices := { today := none, tomorrow := none, yesterday := none } }

def store1 : Store := { entries := [(key0, FetchStatus.resolvedOk resp0)] }

/-! ## Helper lemmas -/

theorem dayMs_pos : (0 : Int) < dayMs := by decide

theorem dayMs_ne : (dayMs : Int) ≠ 0 := by decide

theorem dayOf_mono {a b : Int} (h : a ≤ b) : dayOf a ≤ dayOf b :=
  Int.ediv_le_ediv dayMs_pos h

theorem self_lt_next_day (t : Int) : t < dayMs * (dayOf t + 1) := by
  have h := Int.lt_ediv_add_one_mul_self t dayMs_pos
  unfold dayOf
  linarith [h, mul_comm (t / dayMs + 1) dayMs]

theorem day_mul_le (t : Int) : dayMs * dayOf t ≤ t := by
  have h := Int.ediv_mul_le t dayMs_ne
  unfold dayOf
  linarith [h, mul_comm (t / dayMs) dayMs]

/-- A forward step taken while the reference date is the real current calendar
date is rejected by the future guard, leaving the state unchanged. -/
theorem forward_noop (rt : Int) (st : HomeState) (h : dayOf st.now = dayOf rt) :
    changeDate rt Direction.right st = st := by
  have hlt : rt < navTarget Direction.right st.now := by
    have h1 := self_lt_next_day rt
    have h2 := day_mul_le st.now
    rw [← h] at h1
    have h3 : dayMs * (dayOf st.now + 1) = dayMs * dayOf st.now + dayMs := by ring
    show rt < addDays st.now 1
    unfold addDays
    linarith
  simp only [changeDate]
  rw [if_neg]
  simp [isFuture, hlt]

/-- Every event preserves the no-future invariant. -/
theorem stepEv_noFuture {rt : Int} (e : Event) {st : HomeState}
    (h : noFuture rt st) : noFuture rt (stepEv rt e st) := by
  cases e with
  | navigate direction =>
    have hc : noFuture rt (changeDate rt direction st) := by
      simp only [changeDate]
      by_cases hg : isFuture (navTarget direction st.now) rt = false
      · rw [if_pos hg]
        have hle : navTarget direction st.now ≤ rt := by
          unfold isFuture at hg
          simpa using hg
        exact dayOf_mono hle
      · rw [if_neg hg]
        exact h
    simpa [stepEv, syncNowEffect, noFuture] using hc
  | slotClicked day =>
    simp only [stepEv, clickSlot]
    split
    · exact h
    · exact h
  | fuelChanged => exact h
  | dataResolved r => exact h

theorem resolve_of_seen {s : Store} {k : CacheKey} {v : FetchStatus}
    (h : lookupKey s k = some v) : resolve k s = (s, false) := by
  unfold resolve
  rw [h]

theorem lookupKey_insert (s : Store) (k : CacheKey) (v : FetchStatus) :
    lookupKey { entries := (k, v) :: s.entries } k = some v := by
  simp [lookupKey, List.find?]

theorem resolveN_of_seen (k : CacheKey) (v : FetchStatus) (n : Nat) :
    ∀ s : Store, lookupKey s k = some v → resolveN k n s = (s, 0) := by
  induction n with
  | zero => intro s _; rfl
  | succ m ih =>
    intro s h
    have hr : resolve k s = (s, false) := resolve_of_seen h
    simp [resolveN, hr, ih s h]

/-! ## Claims -/

/-- C1 (amended): from any initial state whose reference date is not after the
real current calendar date, every reachable state of the panel keeps the
reference date not after the real current calendar date; and whenever the
reference date equals the real current calendar date, a forward step is a no-op
that leaves the whole state unchanged.  (The initialization clause of the claim
is refuted separately: a valid future query override is accepted unguarded.) -/
theorem no_future_invariant (rt : Int) (st0 st : HomeState)
    (h0 : noFuture rt st0) (hr : ReachableFrom rt st0 st) :
    noFuture rt st ∧
    ∀ st1 : HomeState, dayOf st1.now = dayOf rt →
      changeDate rt Direction.right st1 = st1 := by
  refine ⟨?_, fun st1 h1 => forward_noop rt st1 h1⟩
  induction hr with
  | refl => exact h0
  | step e h ih => exact stepEv_noFuture e ih

theorem no_future_invariant_witness :
    noFuture 1704067200000 homeState0 ∧
    dayOf homeState0.now = dayOf (1704067200000 : Int) ∧
    changeDate 1704067200000 Direction.right homeState0 = homeState0 :=
  ⟨(no_future_invariant 1704067200000 homeState0 homeState0 (by decide)
      ReachableFrom.refl).1,
    by decide,
    (no_future_invariant 1704067200000 homeState0 homeState0 (by decide)
      ReachableFrom.refl).2 homeState0 (by decide)⟩

/-- C1 counterexample: at real time 2024-01-01T00:00 (day 19723) the query
override `now=2099-01-01` is parsed and accepted with no future guard
(`getInitialDate`, lines 84-94), producing an initial state whose reference date
(day 47117) is strictly after the real current calendar date. -/
theorem no_future_init_violated :
    initState (some "2099-01-01") 1704067200000 =
      some { priceChangeState := none, now := 4070908800000,
             nowParam := "2099-01-01", data := none } ∧
    dayOf (1704067200000 : Int) < dayOf (4070908800000 : Int) := by
  exact ⟨by decide, by decide⟩

/-- C2: `toggleShowPriceChange` collapses when toggling the currently expanded
slot, expands the given slot from the collapsed state or from a different
expanded slot, and toggling the same slot twice from the collapsed state returns
to the collapsed state. -/
theorem toggle_spec (pp ppPrev : List PrevPrice) (s sOther : DayKind)
    (h : sOther ≠ s) :
    toggleShowPriceChange pp s (some { prevPrices := ppPrev, day := s }) = none ∧
    toggleShowPriceChange pp s none = some { prevPrices := pp, day := s } ∧
    toggleShowPriceChange pp s (some { prevPrices := ppPrev, day := sOther }) =
      some { prevPrices := pp, day := s } ∧
    toggleShowPriceChange pp s (toggleShowPriceChange pp s none) = none := by
  refine ⟨?_, rfl, ?_, ?_⟩ <;> simp [toggleShowPriceChange, h]

theorem toggle_spec_witness :
    DayKind.Yesterday ≠ DayKind.Today ∧
    (toggleShowPriceChange [] DayKind.Today
        (some { prevPrices := [], day := DayKind.Today }) = none ∧
      toggleShowPriceChange [] DayKind.Today none =
        some { prevPrices := [], day := DayKind.Today } ∧
      toggleShowPriceChange [] DayKind.Today
          (some { prevPrices := [], day := DayKind.Yesterday }) =
        some { prevPrices := [], day := DayKind.Today } ∧
      toggleShowPriceChange [] DayKind.Today
          (toggleShowPriceChange [] DayKind.Today none) = none) :=
  ⟨by decide, toggle_spec [] [] DayKind.Today DayKind.Yesterday (by decide)⟩

/-- C3 (amended): a malformed date override does not fall back to the real
current date: date-fns `parse` yields an Invalid Date (its third argument only
supplies missing units, it is not a fallback), and the subsequent
`format(now, ...)` of that Invalid Date throws, so initialization fails instead
of silently substituting the current date. -/
theorem malformed_override_no_fallback (s : String) (rt : Int)
    (h : parseYMD s = none) :
    getInitialDate (some s) rt = none ∧ initState (some s) rt = none := by
  have h1 : getInitialDate (some s) rt = none := by
    unfold getInitialDate
    simpa using h
  refine ⟨h1, ?_⟩
  unfold initState
  rw [h1]

theorem malformed_override_no_fallback_witness :
    parseYMD "garbage" = none ∧
    (getInitialDate (some "garbage") 1704067200000 = none ∧
      initState (some "garbage") 1704067200000 = none) :=
  ⟨by decide, malformed_override_no_fallback "garbage" 1704067200000 (by decide)⟩

/-- C3 counterexample: with the unparseable override `not-a-date` at real time
2024-01-01 (midnight timestamp 1704067200000), `getInitialDate` yields an
Invalid Date (`none`), not the real current date. -/
theorem malformed_override_not_current_date :
    parseYMD "not-a-date" = none ∧
    getInitialDate (some "not-a-date") 1704067200000 = none ∧
    getInitialDate (some "not-a-date") 1704067200000 ≠
      some (dayMs * dayOf (1704067200000 : Int)) := by
  exact ⟨by decide, by decide, by decide⟩

/-- C4: a fuel-type change (the effect on `[fueltype]`, lines 119-121) and a
successful navigation step (`changeDate`, lines 157-168, when the future guard
passes) both set the change tracker to `Collapsed` (`null`), whatever state it
was in. -/
theorem reset_on_context_change (rt : Int) (direction : Direction)
    (st stF : HomeState)
    (h : isFuture (navTarget direction st.now) rt = false) :
    (changeDate rt direction st).priceChangeState = none ∧
    (stepEv rt Event.fuelChanged stF).priceChangeState = none := by
  constructor
  · simp only [changeDate]
    rw [if_pos h]
  · rfl

theorem reset_on_context_change_witness :
    isFuture (navTarget Direction.left homeState0.now) 1704067200000 = false ∧
    ((changeDate 1704067200000 Direction.left homeState0).priceChangeState = none ∧
      (stepEv 1704067200000 Event.fuelChanged homeState0).priceChangeState = none) :=
  ⟨by decide,
    reset_on_context_change 1704067200000 Direction.left homeState0 homeState0
      (by decide)⟩

/-- C5 (amended): only the UI guard makes a toggle on a slot with an empty
revision history a no-op: the click handler (line 45) invokes the toggle only
when `hasPriceChanged`, so a click on such a slot leaves the state unchanged —
but the state-machine function `toggleShowPriceChange` itself performs no such
check (refuted separately). -/
theorem empty_history_click_noop (day : DayKind) (st : HomeState)
    (h : slotPrevPrices day st.data = []) :
    clickSlot day st = st := by
  simp [clickSlot, h]

theorem empty_history_click_noop_witness :
    slotPrevPrices DayKind.Today homeState0.data = [] ∧
    clickSlot DayKind.Today homeState0 = homeState0 :=
  ⟨by decide, empty_history_click_noop DayKind.Today homeState0 (by decide)⟩

/-- C5 counterexample: invoked directly with an empty `prevPrices` list from the
collapsed state, `toggleShowPriceChange` (lines 143-155) is not a no-op: it
expands the slot (with an empty stored history) instead of ignoring the call. -/
theorem toggle_empty_history_changes_state :
    toggleShowPriceChange [] DayKind.Today none =
      some { prevPrices := [], day := DayKind.Today } ∧
    some { prevPrices := ([] : List PrevPrice), day := DayKind.Today } ≠
      (none : Option PriceChangeState) :=
  ⟨rfl, by decide⟩

/-- C6 (modelled from the spec, §4.3): if `resolve` is invoked `n ≥ 1` times for
a key with no existing entry, with no intervening completion, the fetch function
is invoked exactly once; and for a key whose entry is already resolved, `resolve`
serves the cached entry without re-fetching. -/
theorem at_most_one_fetch (k : CacheKey) (s : Store) (n : Nat)
    (h : lookupKey s k = none) (hn : 1 ≤ n) :
    (resolveN k n s).2 = 1 ∧
    ∀ (s2 : Store) (r : PriceResponse),
      lookupKey s2 k = some (FetchStatus.resolvedOk r) → resolve k s2 = (s2, false) := by
  constructor
  · obtain ⟨m, rfl⟩ : ∃ m, n = m + 1 := ⟨n - 1, by omega⟩
    have h1 : resolve k s = ({ entries := (k, FetchStatus.pending) :: s.entries }, true) := by
      unfold resolve
      rw [h]
    have h2 := resolveN_of_seen k FetchStatus.pending m
      { entries := (k, FetchStatus.pending) :: s.entries }
      (lookupKey_insert s k FetchStatus.pending)
    simp [resolveN, h1, h2]
  · intro s2 r h2
    exact resolve_of_seen h2

theorem at_most_one_fetch_witness :
    lookupKey store0 key0 = none ∧ 1 ≤ 3 ∧
    (resolveN key0 3 store0).2 = 1 ∧
    lookupKey store1 key0 = some (FetchStatus.resolvedOk resp0) ∧
    resolve key0 store1 = (store1, false) :=
  ⟨by decide, by decide,
    (at_most_one_fetch key0 store0 3 (by decide) (by decide)).1,
    by decide,
    (at_most_one_fetch key0 store0 3 (by decide) (by decide)).2 store1 resp0 (by decide)⟩

/-- C7: the cache key is a pure function of the calendar day of the reference
date and the fuel type: two timestamps lying on the same calendar day yield
structurally equal keys, whatever their time-of-day. -/
theorem derive_key_deterministic (t1 t2 : Int) (f : Fueltype)
    (h : dayOf t1 = dayOf t2) : deriveKey t1 f = deriveKey t2 f := by
  unfold deriveKey
  rw [h]

theorem derive_key_deterministic_witness :
    dayOf (1704067200000 : Int) = dayOf (1704070800000 : Int) ∧
    deriveKey 1704067200000 "E10" = deriveKey 1704070800000 "E10" :=
  ⟨by decide, derive_key_deterministic 1704067200000 1704070800000 "E10" (by decide)⟩

/-- C8: a slot whose record is `null` renders totally and without error as the
explicit unknown-price placeholder `??.?? kr`; the loading pulse is an
independent field equal to the `loading` flag, so the placeholder is distinct
from (and shown even without) the loading state, and the slot is neither
clickable nor marked as changed. -/
theorem null_slot_renders_placeholder (loading active : Bool) (day : DayKind) :
    renderPriceDisplay loading none day active =
      { pulse := loading, clickable := false, titleText := "", roleText := "none",
        dayShown := day, changedMarker := false, priceText := "??.?? kr",
        highlighted := active } := rfl

/-- C9: the expanded panel is a snapshot: an expanding toggle stores the
`prevPrices` passed at toggle time inside the tracker state, the panel renders
exclusively from that stored copy, and a later data resolution leaves both the
tracker state and the rendered panel unchanged. -/
theorem expanded_panel_is_snapshot (rt : Int) (st : HomeState) (r : PriceResponse)
    (pp : List PrevPrice) (day : DayKind) :
    (stepEv rt (Event.dataResolved r) st).priceChangeState = st.priceChangeState ∧
    renderPanel (stepEv rt (Event.dataResolved r) st) = renderPanel st ∧
    toggleShowPriceChange pp day none = some { prevPrices := pp, day := day } ∧
    renderPanel { st with priceChangeState := some { prevPrices := pp, day := day } } =
      some (day, pp) :=
  ⟨rfl, rfl, rfl, rfl⟩

/-- C10: from any state whose reference date is not after the real current
calendar date, a backward step always passes the future guard: it sets the
reference date to exactly one day earlier and clears the change tracker. -/
theorem backward_step_total (rt : Int) (st : HomeState) (h : noFuture rt st) :
    changeDate rt Direction.left st =
      { st with now := subDays st.now 1, priceChangeState := none } ∧
    dayOf (subDays st.now 1) = dayOf st.now - 1 := by
  constructor
  · have hle : subDays st.now 1 ≤ rt := by
      have h1 := self_lt_next_day st.now
      have h2 := day_mul_le rt
      unfold noFuture at h
      have h3 : dayMs * (dayOf st.now + 1) ≤ dayMs * (dayOf rt + 1) := by
        have := mul_le_mul_of_nonneg_left (by linarith : dayOf st.now + 1 ≤ dayOf rt + 1)
          (le_of_lt dayMs_pos)
        linarith [this]
      have h4 : dayMs * (dayOf rt + 1) = dayMs * dayOf rt + dayMs := by ring
      unfold subDays
      linarith
    simp only [changeDate]
    rw [if_pos]
    · rfl
    · simp [isFuture, navTarget, not_lt.mpr hle]
  · unfold subDays dayOf
    have h5 : st.now - 1 * dayMs = st.now + (-1) * dayMs := by ring
    rw [h5, Int.add_mul_ediv_right st.now (-1) dayMs_ne]
    ring

theorem backward_step_total_witness :
    noFuture 1704067200000 homeState0 ∧
    (changeDate 1704067200000 Direction.left homeState0 =
        { homeState0 with now := subDays homeState0.now 1, priceChangeState := none } ∧
      dayOf (subDays homeState0.now 1) = dayOf homeState0.now - 1) :=
  ⟨by decide, backward_step_total 1704067200000 homeState0 (by decide)⟩

end Fuelprices
